import Mathlib

/-!
Verification of the type-grammar parser in `lib/Parse/ParseType.cpp`
(committed parser and speculative prober) against its specification.

The token cursor is modelled as a `List Token` (the remaining tokens);
`consume` is `List.tail`.  Machinery that `ParseType.cpp` uses but that
lives outside the file (lexer primitives, `parseList`, `parseExpr`,
attribute parsing, scope lookup, skipping helpers) is modelled from the
specification; each such definition carries a doc comment saying so.
Recursion through the grammar is fuel-indexed: every recursive call
decreases the fuel, and running out of fuel yields the failure value.
-/

namespace ParseType

/-- Token kinds used by the type grammar.  `oper` stands for the operator
token classes (`Tok.isAnyOperator()`); `periodPfx` is the lexer's
`tok::period_prefix`; `kw_decl` stands for the family of declaration-starting
keywords recognised by the external `isStartOfDecl` predicate; `int_lit`
stands for an expression-starting literal token. -/
inductive TokenKind where
  | identifier | kw_This | kw_protocol | kw_metatype | kw_decl
  | l_paren | r_paren | l_square | r_square | l_brace | r_brace
  | period | periodPfx | comma | semi | colon | equal | ellipsis
  | arrow | question | oper | int_lit | eof
deriving DecidableEq, Repr

/-- A lexed token: kind, text, whether it is the first token on its source
line, the source character immediately preceding it in the buffer (read by
`isGenericTypeDisambiguatingToken` via `getText().data()[-1]`), and its
source location (a character offset used for diagnostics). -/
structure Token where
  kind : TokenKind
  text : String
  atStartOfLine : Bool
  prevChar : Char
  loc : Nat
deriving DecidableEq, Repr

/-- The token returned when peeking past the end of the stream. -/
def eofToken : Token := ⟨.eof, "", false, ' ', 0⟩

/-- The remaining token stream; the parser's cursor state. -/
abbrev TokStream := List Token

/-- The current token (`Tok`). -/
def headTok : TokStream → Token
  | [] => eofToken
  | t :: _ => t

/-- One-token lookahead (`peekToken()`). -/
def peekTok (st : TokStream) : Token := headTok st.tail

/-- Advance the cursor by one token (`consumeToken()`). -/
def consume (st : TokStream) : TokStream := st.tail

/-- Consume the current token if it has the given kind (`consumeIf`). -/
def consumeIfKind (k : TokenKind) (st : TokStream) : Bool × TokStream :=
  if (headTok st).kind = k then (true, consume st) else (false, st)

/-- Whether the token is an operator token (`Tok.isAnyOperator()`). -/
def isAnyOperator (t : Token) : Bool := t.kind = .oper

/-- The first character of a token's text, if any. -/
def firstChar (s : String) : Option Char := s.data.head?

/-- Drop the first character of a string (used when an operator token is
split at its leading angle bracket). -/
def dropFirstChar (s : String) : String := ⟨s.data.drop 1⟩

/-- Modelled from the spec: `startsWithLess` — the current token is an
operator token whose text begins with `<` (a `<` that may open a
generic-argument list, possibly glued to further operator characters). -/
def startsWithLess (t : Token) : Bool :=
  isAnyOperator t && firstChar t.text = some '<'

/-- Modelled from the spec: `startsWithGreater`, symmetric to
`startsWithLess`. -/
def startsWithGreater (t : Token) : Bool :=
  isAnyOperator t && firstChar t.text = some '>'

/-- Modelled from the spec: `consumeStartingLess` — consume just the
leading `<` of the current operator token.  If the token is exactly `<` the
whole token is consumed; otherwise the token is split: the remainder stays
as an operator token one character shorter, no longer at the start of a
line, now preceded by the consumed `<`.  Returns the location of the `<`
and the new stream. -/
def consumeStartingLess (st : TokStream) : Nat × TokStream :=
  match st with
  | [] => (0, [])
  | t :: rest =>
    if t.text = "<" then (t.loc, rest)
    else (t.loc, ⟨.oper, dropFirstChar t.text, false, '<', t.loc + 1⟩ :: rest)

/-- Modelled from the spec: `consumeStartingGreater`, symmetric to
`consumeStartingLess`. -/
def consumeStartingGreater (st : TokStream) : Nat × TokStream :=
  match st with
  | [] => (0, [])
  | t :: rest =>
    if t.text = ">" then (t.loc, rest)
    else (t.loc, ⟨.oper, dropFirstChar t.text, false, '>', t.loc + 1⟩ :: rest)

/-- Whether the current token is a `[` with no line break before it
(`Tok.isFollowingLSquare()`); the spec: a square bracket "without a
newline" continues the type as an array suffix. -/
def isFollowingLSquare (t : Token) : Bool :=
  t.kind = .l_square && !t.atStartOfLine

/-- Modelled from the spec: `isStartOfDecl` — whether the token begins a
declaration; our token alphabet carries the declaration-starting keyword
family as the single kind `kw_decl`. -/
def isStartOfDecl (t : Token) : Bool := t.kind = .kw_decl

/-- Modelled from the spec: `isStartOfBindingName` — whether the token is a
valid binding name (an identifier in our alphabet). -/
def isStartOfBindingName (t : Token) : Bool := t.kind = .identifier

/-- Diagnostic conditions named in `ParseType.cpp` (fix-it payloads are not
modelled; only which diagnostic is emitted, and where). -/
inductive DiagKind where
  | expected_type
  | expected_type_function_result
  | expected_identifier_for_type
  | expected_identifier_in_dotted_type
  | expected_rangle_generic_arg_list
  | opening_angle
  | expected_langle_protocol
  | expected_rangle_protocol
  | expected_rparen_tuple_type_list
  | tuple_type_init
  | unexpected_ellipsis_in_tuple
  | empty_tuple_ellipsis
  | expected_expr_array_type
  | expected_rbracket_array_type
  | unsupported_fixed_length_array
  | expected_initializer_expr
deriving DecidableEq, Repr

/-- An emitted diagnostic: condition plus anchor location. -/
structure Diag where
  kind : DiagKind
  loc : Nat
deriving DecidableEq, Repr

/-- An expression as seen by this core: opaque, carrying the token span the
external expression parser consumed (used only for diagnostics ranges). -/
structure Expr where
  toks : List Token
deriving DecidableEq, Repr

mutual
/-- The type-representation AST (`TypeRepr` and its subclasses).
`attributed` mirrors `AttributedTypeRepr`: its inner pointer may be null
(`none`) because `applyAttributeToType` wraps whatever `parseType`
returned, without checking it. -/
inductive TypeRepr where
  | identType (components : List Component)
  | function (dom cod : TypeRepr)
  | optionalType (base : TypeRepr) (qloc : Nat)
  | arrayType (base : TypeRepr) (size : Option Expr) (lsq rsq : Nat)
  | metaType (base : TypeRepr) (mloc : Nat)
  | protoComp (members : List TypeRepr) (protoLoc lAngle rAngle : Nat)
  | tupleType (elements : List TypeRepr) (lp rp : Nat) (ellipsisLoc : Option Nat)
  | namedElt (name : String) (inner : TypeRepr) (nameLoc : Nat)
  | attributed (attrs : List Token) (inner : Option TypeRepr)

/-- One component of a dotted type path (`IdentTypeRepr::Component`):
location, name, generic arguments, and the scope-resolution result
(opaque; `none` when the external lookup finds nothing). -/
inductive Component where
  | mk (loc : Nat) (name : String) (genericArgs : List TypeRepr)
       (resolved : Option Unit)
end

/-- Destructure a component. -/
def Component.name : Component → String
  | .mk _ n _ _ => n

/-- Destructure a component. -/
def Component.genericArgs : Component → List TypeRepr
  | .mk _ _ a _ => a

mutual

/-- Modelled from the spec: `skipSingle` — the token-skipping recovery
primitive; an opening `(`/`[`/`{` skips to and through its matching
closer, any other token is consumed alone. -/
def skipSingle : Nat → TokStream → TokStream
  | 0, st => st
  | f+1, st =>
    match (headTok st).kind with
    | .l_paren => (consumeIfKind .r_paren (skipUntilKind f .r_paren (consume st))).2
    | .l_brace => (consumeIfKind .r_brace (skipUntilKind f .r_brace (consume st))).2
    | .l_square => (consumeIfKind .r_square (skipUntilKind f .r_square (consume st))).2
    | _ => consume st

/-- Modelled from the spec: `skipUntil` — skip whole syntactic units until
end-of-input or a token of the given kind. -/
def skipUntilKind : Nat → TokenKind → TokStream → TokStream
  | 0, _, st => st
  | f+1, k, st =>
    if (headTok st).kind = .eof ∨ (headTok st).kind = k then st
    else skipUntilKind f k (skipSingle f st)

end

/-- Modelled from the spec: `skipUntilAnyOperator` — skip whole syntactic
units until end-of-input or the next operator-class token (the recovery
principle: resynchronise at operator tokens around mismatched angle
brackets). -/
def skipUntilAnyOperator : Nat → TokStream → TokStream
  | 0, st => st
  | f+1, st =>
    if (headTok st).kind = .eof ∨ isAnyOperator (headTok st) = true then st
    else skipUntilAnyOperator f (skipSingle f st)

/-- Modelled from the spec: list recovery for the delimited-list helper —
skip bracket-balanced units to the next separator (`,`), the closing `)`,
or end-of-input. -/
def skipToListSep : Nat → TokStream → TokStream
  | 0, st => st
  | f+1, st =>
    let k := (headTok st).kind
    if k = .eof ∨ k = .comma ∨ k = .r_paren then st
    else skipToListSep f (skipSingle f st)

/-- Modelled from the spec: `parseIdentifier` — consume one name token (an
identifier, or `This`, the identifier-like keyword); on any other token
emit the supplied diagnostic and fail without consuming. -/
def parseIdentifier (msg : DiagKind) (st : TokStream) :
    Option (String × Nat) × TokStream × List Diag :=
  let t := headTok st
  if t.kind = .identifier ∨ t.kind = .kw_This then
    (some (t.text, t.loc), consume st, [])
  else (none, st, [⟨msg, t.loc⟩])

/-- Modelled from the spec: `lookupInScope` — the scope/name-resolution
collaborator, a non-fatal enrichment applied to the first path component
only; modelled as the empty lexical scope (every lookup misses). -/
def lookupInScope (_name : String) : Option Unit := none

/-- Mirrors the scope-lookup enrichment at the end of
`parseTypeIdentifier`: resolve the first component's name and attach the
result when something is found. -/
def applyLookup : List Component → List Component
  | [] => []
  | .mk loc name args r :: rest =>
    match lookupInScope name with
    | some e => .mk loc name args (some e) :: rest
    | none => .mk loc name args r :: rest

/-- Tokens that cannot begin or continue the expression spans this core
asks the external expression parser for (list delimiters, closers,
declaration starts). -/
def exprStop (t : Token) : Bool :=
  match t.kind with
  | .eof | .r_paren | .r_square | .r_brace | .comma | .semi | .colon
  | .ellipsis | .equal | .kw_decl => true
  | _ => false

/-- Modelled from the spec: the consumption of the external expression
parser — a maximal bracket-balanced token span up to the next list
delimiter, closer, or declaration start. -/
def exprSkip : Nat → TokStream → List Token × TokStream
  | 0, st => ([], st)
  | f+1, st =>
    if exprStop (headTok st) = true then ([], st)
    else
      let st' := skipSingle f st
      let consumed := st.take (st.length - st'.length)
      let (more, st'') := exprSkip f st'
      (consumed ++ more, st'')

/-- Modelled from the spec: `parseExpr` — the external expression
collaborator, used only for array-size expressions and tuple
default-value recovery spans; an empty span is a failure diagnosed with
the supplied message. -/
def parseExpr (msg : DiagKind) (f : Nat) (st : TokStream) :
    Option Expr × TokStream × List Diag :=
  if exprStop (headTok st) = true then (none, st, [⟨msg, (headTok st).loc⟩])
  else
    let (span, st') := exprSkip f st
    (some ⟨span⟩, st', [])

/-- Modelled from the spec: `parseMatchingToken` — expect and consume a
token of the given kind; otherwise emit the diagnostic and report
failure.  Returns the consumed token's location on success. -/
def parseMatchingToken (k : TokenKind) (msg : DiagKind) (st : TokStream) :
    Option Nat × TokStream × List Diag :=
  if (headTok st).kind = k then (some (headTok st).loc, consume st, [])
  else (none, st, [⟨msg, (headTok st).loc⟩])

/-- Modelled from the spec: the skipping loop shared by attribute
tolerance — skip bracket-balanced units until a closer, end-of-input, or a
declaration start, collecting the tokens passed over. -/
def attrSkip : Nat → TokStream → List Token × TokStream
  | 0, st => ([], st)
  | f+1, st =>
    let k := (headTok st).kind
    if k = .eof ∨ k = .r_brace ∨ k = .r_square ∨ k = .r_paren ∨ k = .kw_decl then
      ([], st)
    else
      let st' := skipSingle f st
      let consumed := st.take (st.length - st'.length)
      let (more, st'') := attrSkip f st'
      (consumed ++ more, st'')

/-- Modelled from the spec: `parseAttributeList` — parses an optional
attribute list.  Attributes are opaque to this core (only their presence
or absence matters) and are written in square brackets in this grammar
era; the tokens between the brackets form the attribute set.  Mirrors the
prober's attribute tolerance: consume `[`, skip to the closing bracket,
consume it when present. -/
def parseAttributeList (f : Nat) (st : TokStream) : List Token × TokStream :=
  if (headTok st).kind = .l_square then
    let (attrs, st1) := attrSkip f (consume st)
    (attrs, (consumeIfKind .r_square st1).2)
  else ([], st)

/-- Mirrors `Parser::applyAttributeToType`: when no attributes apply
return the parsed type unchanged; otherwise wrap whatever `parseType`
returned — including a null result — in an `attributed` node. -/
def applyAttributeToType (ty : Option TypeRepr) (attrs : List Token) :
    Option TypeRepr :=
  if attrs.isEmpty then ty else some (.attributed attrs ty)

/-- Mirrors the `.metatype` suffix loop of the committed `parseType`
(lines 93-99): while the current token is a period (either kind) and the
next is the `metatype` keyword, consume both and wrap the type. -/
def metatypeSuffixes (ty : TypeRepr) : TokStream → TypeRepr × TokStream
  | t1 :: t2 :: rest =>
    if (t1.kind = .period ∨ t1.kind = .periodPfx) ∧ t2.kind = .kw_metatype then
      metatypeSuffixes (.metaType ty t2.loc) rest
    else (ty, t1 :: t2 :: rest)
  | st => (ty, st)

/-- Mirrors the `.metatype` suffix loop of `canParseType`
(lines 480-484); same consumption, no node building. -/
def specMetatypeSuffixes : TokStream → TokStream
  | t1 :: t2 :: rest =>
    if (t1.kind = .period ∨ t1.kind = .periodPfx) ∧ t2.kind = .kw_metatype then
      specMetatypeSuffixes rest
    else t1 :: t2 :: rest
  | st => st

/-- Mirrors `Parser::parseTypeOptional`: consume the `?` and wrap. -/
def parseTypeOptional (base : TypeRepr) (st : TokStream) : TypeRepr × TokStream :=
  (.optionalType base (headTok st).loc, consume st)

/-- Mirrors the optional-suffix loop of the committed `parseType`
(lines 109-111): wrap (as `parseTypeOptional` does) while a `?` follows
with no line break. -/
def optionalSuffixes (ty : TypeRepr) : TokStream → TypeRepr × TokStream
  | t :: rest =>
    if t.kind = .question ∧ t.atStartOfLine = false then
      optionalSuffixes (.optionalType ty t.loc) rest
    else (ty, t :: rest)
  | [] => (ty, [])

/-- Mirrors the optional-suffix loop of `canParseType` (line 494):
`while (!Tok.isAtStartOfLine() && consumeIf(tok::question))`. -/
def specOptionalSuffixes : TokStream → TokStream
  | t :: rest =>
    if t.atStartOfLine = false ∧ t.kind = .question then specOptionalSuffixes rest
    else t :: rest
  | [] => []

/-- Mirrors the closing-angle handling at the end of
`parseTypeComposition` (lines 246-263): a missing `>` is diagnosed (with a
note at the opening `<`) unless a member already failed; recovery then
skips to the nearest operator token and consumes it when it starts with
`>`; a node is built from the accumulated members in every case. -/
def compositionFinish (f : Nat) (protocolLoc lAngleLoc : Nat) (invalid : Bool)
    (members : List TypeRepr) (st : TokStream) :
    Option TypeRepr × TokStream × List Diag :=
  if startsWithGreater (headTok st) = true then
    let (endLoc, st1) := consumeStartingGreater st
    (some (.protoComp members protocolLoc lAngleLoc endLoc), st1, [])
  else
    let d : List Diag :=
      if invalid then []
      else [⟨.expected_rangle_protocol, (headTok st).loc⟩, ⟨.opening_angle, lAngleLoc⟩]
    let st1 := skipUntilAnyOperator f st
    if startsWithGreater (headTok st1) = true then
      let (endLoc, st2) := consumeStartingGreater st1
      (some (.protoComp members protocolLoc lAngleLoc endLoc), st2, d)
    else
      (some (.protoComp members protocolLoc lAngleLoc (headTok st).loc), st1, d)

/-- Mirrors the end of `parseTypeTupleBody` (lines 332-339): a tuple
marked variadic with zero elements is diagnosed and fails; otherwise the
tuple node is built, spanning to the current location and carrying the
ellipsis location exactly when the variadic marker was recorded. -/
def tupleBodyFinish (lpLoc : Nat) (elems : List TypeRepr) (ellip : Option Nat)
    (st : TokStream) : Option TypeRepr × TokStream × List Diag :=
  match ellip with
  | some eloc =>
    if elems.isEmpty then (none, st, [⟨.empty_tuple_ellipsis, eloc⟩])
    else (some (.tupleType elems lpLoc (headTok st).loc (some eloc)), st, [])
  | none => (some (.tupleType elems lpLoc (headTok st).loc none), st, [])

/-- Mirrors the attribute-bracket tolerance of `canParseTypeTupleBody`
(lines 578-586 and 609-617): a `[` skips units until a closer or
declaration start and then requires the closing `]`. -/
def specTupleAttr (f : Nat) (st : TokStream) : Bool × TokStream :=
  if (headTok st).kind = .l_square then
    let (_, st1) := attrSkip f (consume st)
    if (headTok st1).kind = .r_square then (true, consume st1)
    else (false, st1)
  else (true, st)

/-- Mirrors the default-value recovery skip of `canParseTypeTupleBody`
(lines 594-600): after `=`, skip units until a list delimiter, closer,
ellipsis, or declaration start. -/
def specSkipDefault : Nat → TokStream → TokStream
  | 0, st => st
  | f+1, st =>
    let k := (headTok st).kind
    if k = .eof ∨ k = .r_paren ∨ k = .r_brace ∨ k = .ellipsis ∨ k = .comma
        ∨ isStartOfDecl (headTok st) = true then st
    else specSkipDefault f (skipSingle f st)

mutual

/-- Mirrors `Parser::parseType(Diag<> MessageID)`, the committed parser's
top-level entry: dispatch on the current token to a simple type, then the
`.metatype` loop, then either an arrow function (terminal) or the
optional-suffix loop followed by an array suffix. -/
def parseType (msg : DiagKind) : Nat → TokStream → Option TypeRepr × TokStream × List Diag
  | 0, st => (none, st, [])
  | f+1, st =>
    let k := (headTok st).kind
    let simple : Option TypeRepr × TokStream × List Diag :=
      if k = .kw_This ∨ k = .identifier then parseTypeIdentifier f st
      else if k = .kw_protocol then parseTypeComposition f st
      else if k = .l_paren then parseTypeTupleBody f st
      else (none, st, [⟨msg, (headTok st).loc⟩])
    match simple with
    | (none, st1, d1) => (none, st1, d1)
    | (some ty0, st1, d1) =>
      match parseTypeSuffixes f ty0 st1 with
      | (oty, st2, d2) => (oty, st2, d1 ++ d2)

/-- Mirrors the postfix chain of the committed `parseType` (lines
93-117), applied after the simple type: the `.metatype` loop, then either
an arrow function — terminal, recursing into the result type — or the
optional-suffix loop followed by an array suffix. -/
def parseTypeSuffixes : Nat → TypeRepr → TokStream →
    Option TypeRepr × TokStream × List Diag
  | 0, _, st1 => (none, st1, [])
  | f+1, ty0, st1 =>
    let (ty2, st2) := metatypeSuffixes ty0 st1
    if (headTok st2).kind = .arrow then
      match parseType .expected_type_function_result f (consume st2) with
      | (none, st3, d3) => (none, st3, d3)
      | (some cod, st3, d3) => (some (.function ty2 cod), st3, d3)
    else
      let (ty4, st4) := optionalSuffixes ty2 st2
      if isFollowingLSquare (headTok st4) = true then parseTypeArray f ty4 st4
      else (some ty4, st4, [])

/-- Mirrors `Parser::parseTypeIdentifier`: entry check, the component
loop, then the scope-lookup enrichment on the first component. -/
def parseTypeIdentifier : Nat → TokStream → Option TypeRepr × TokStream × List Diag
  | 0, st => (none, st, [])
  | f+1, st =>
    if (headTok st).kind = .identifier ∨ (headTok st).kind = .kw_This then
      match identComponents f [] st with
      | (none, st1, d1) => (none, st1, d1)
      | (some comps, st1, d1) => (some (.identType (applyLookup comps)), st1, d1)
    else
      (none, st, [⟨.expected_identifier_for_type, (headTok st).loc⟩])

/-- Mirrors the component loop of `parseTypeIdentifier` (lines 170-195):
parse one name, optional generic arguments (whose failure is a hard
failure), then continue past a period unless the period is followed by the
`metatype` keyword. -/
def identComponents : Nat → List Component → TokStream → Option (List Component) × TokStream × List Diag
  | 0, _, st => (none, st, [])
  | f+1, acc, st =>
    match parseIdentifier .expected_identifier_in_dotted_type st with
    | (none, st1, d1) => (none, st1, d1)
    | (some (name, loc), st1, d1) =>
      if startsWithLess (headTok st1) = true then
        match parseGenericArguments f st1 with
        | (none, st2, d2) => (none, st2, d1 ++ d2)
        | (some args, st2, d2) =>
          let acc' := acc ++ [Component.mk loc name args none]
          if ((headTok st2).kind = .period ∨ (headTok st2).kind = .periodPfx)
              ∧ (peekTok st2).kind ≠ .kw_metatype then
            match identComponents f acc' (consume st2) with
            | (r, st3, d3) => (r, st3, d1 ++ d2 ++ d3)
          else (some acc', st2, d1 ++ d2)
      else
        let acc' := acc ++ [Component.mk loc name [] none]
        if ((headTok st1).kind = .period ∨ (headTok st1).kind = .periodPfx)
            ∧ (peekTok st1).kind ≠ .kw_metatype then
          match identComponents f acc' (consume st1) with
          | (r, st3, d3) => (r, st3, d1 ++ d3)
        else (some acc', st1, d1)

/-- Mirrors `Parser::parseGenericArguments`; a `none` result is the
function's `true` (failure) return.  The caller guarantees the opening
`<`. -/
def parseGenericArguments : Nat → TokStream → Option (List TypeRepr) × TokStream × List Diag
  | 0, st => (none, st, [])
  | f+1, st =>
    if startsWithLess (headTok st) = true then
      let (lAngleLoc, st1) := consumeStartingLess st
      genericArgsList f lAngleLoc [] st1
    else (none, st, [])

/-- Mirrors the argument loop and closing-angle handling of
`parseGenericArguments` (lines 127-154), including its non-atomic failure
recovery: on a malformed argument or a missing `>`, skip to the next
operator token, consume it when it starts with `>`, and fail. -/
def genericArgsList : Nat → Nat → List TypeRepr → TokStream → Option (List TypeRepr) × TokStream × List Diag
  | 0, _, _, st => (none, st, [])
  | f+1, lAngleLoc, acc, st =>
    match parseType .expected_type f st with
    | (none, st1, d1) =>
      let st2 := skipUntilAnyOperator f st1
      let st3 := if startsWithGreater (headTok st2) = true
                 then (consumeStartingGreater st2).2 else st2
      (none, st3, d1)
    | (some ty, st1, d1) =>
      let acc' := acc ++ [ty]
      if (headTok st1).kind = .comma then
        match genericArgsList f lAngleLoc acc' (consume st1) with
        | (r, st2, d2) => (r, st2, d1 ++ d2)
      else if startsWithGreater (headTok st1) = true then
        (some acc', (consumeStartingGreater st1).2, d1)
      else
        let d : List Diag :=
          [⟨.expected_rangle_generic_arg_list, (headTok st1).loc⟩,
           ⟨.opening_angle, lAngleLoc⟩]
        let st2 := skipUntilAnyOperator f st1
        let st3 := if startsWithGreater (headTok st2) = true
                   then (consumeStartingGreater st2).2 else st2
        (none, st3, d1 ++ d)

/-- Mirrors `Parser::parseTypeComposition`: `protocol`, a required `<`,
the empty composition, or the member list and the closing-angle
resolution. -/
def parseTypeComposition : Nat → TokStream → Option TypeRepr × TokStream × List Diag
  | 0, st => (none, st, [])
  | f+1, st =>
    let protocolLoc := (headTok st).loc
    let st1 := consume st
    if startsWithLess (headTok st1) = true then
      let (lAngleLoc, st2) := consumeStartingLess st1
      if startsWithGreater (headTok st2) = true then
        let (rAngleLoc, st3) := consumeStartingGreater st2
        (some (.protoComp [] protocolLoc lAngleLoc rAngleLoc), st3, [])
      else
        match compositionMembers f [] st2 with
        | (invalid, members, st3, d3) =>
          match compositionFinish f protocolLoc lAngleLoc invalid members st3 with
          | (r, st4, d4) => (r, st4, d3 ++ d4)
    else (none, st1, [⟨.expected_langle_protocol, (headTok st1).loc⟩])

/-- Mirrors the member loop of `parseTypeComposition` (lines 233-244): a
comma-separated list of `parseTypeIdentifier` results; a failed member
sets the invalid flag and breaks the loop. -/
def compositionMembers : Nat → List TypeRepr → TokStream → Bool × List TypeRepr × TokStream × List Diag
  | 0, acc, st => (true, acc, st, [])
  | f+1, acc, st =>
    match parseTypeIdentifier f st with
    | (none, st1, d1) => (true, acc, st1, d1)
    | (some p, st1, d1) =>
      if (headTok st1).kind = .comma then
        match compositionMembers f (acc ++ [p]) (consume st1) with
        | (inv, ms, st2, d2) => (inv, ms, st2, d1 ++ d2)
      else (false, acc ++ [p], st1, d1)

/-- Mirrors `Parser::parseTypeTupleBody`: consume `(`, run the
delimited-list helper over tuple elements, then the variadic check. -/
def parseTypeTupleBody : Nat → TokStream → Option TypeRepr × TokStream × List Diag
  | 0, st => (none, st, [])
  | f+1, st =>
    let lpLoc := (headTok st).loc
    let st1 := consume st
    match tupleElements f [] none st1 with
    | (elems, ellip, st2, d2) =>
      match tupleBodyFinish lpLoc elems ellip st2 with
      | (r, st3, d3) => (r, st3, d2 ++ d3)

/-- Modelled from the spec: the generic delimited-list helper
(`parseList`) as instantiated by `parseTypeTupleBody` — elements separated
by commas until `)`; a failed element or a missing separator is diagnosed
and recovery skips bracket-balanced units to the next separator or the
closing `)`.  The element callback is `tupleElement` below. -/
def tupleElements : Nat → List TypeRepr → Option Nat → TokStream →
    List TypeRepr × Option Nat × TokStream × List Diag
  | 0, elems, ellip, st => (elems, ellip, st, [])
  | f+1, elems, ellip, st =>
    if (headTok st).kind = .r_paren then (elems, ellip, consume st, [])
    else
      match tupleElement f elems ellip st with
      | (err, elems1, ellip1, st1, d1) =>
        if err then
          let st2 := skipToListSep f st1
          if (headTok st2).kind = .comma then
            match tupleElements f elems1 ellip1 (consume st2) with
            | (es, el, st3, d3) => (es, el, st3, d1 ++ d3)
          else if (headTok st2).kind = .r_paren then (elems1, ellip1, consume st2, d1)
          else (elems1, ellip1, st2, d1)
        else
          if (headTok st1).kind = .comma then
            match tupleElements f elems1 ellip1 (consume st1) with
            | (es, el, st3, d3) => (es, el, st3, d1 ++ d3)
          else if (headTok st1).kind = .r_paren then (elems1, ellip1, consume st1, d1)
          else
            let d := [Diag.mk .expected_rparen_tuple_type_list (headTok st1).loc]
            let st2 := skipToListSep f st1
            if (headTok st2).kind = .comma then
              match tupleElements f elems1 ellip1 (consume st2) with
              | (es, el, st3, d3) => (es, el, st3, d1 ++ d ++ d3)
            else if (headTok st2).kind = .r_paren then
              (elems1, ellip1, consume st2, d1 ++ d)
            else (elems1, ellip1, st2, d1 ++ d)

/-- Mirrors the tuple-element lambda of `parseTypeTupleBody`
(lines 283-329): an optional `name :` label, a type annotation, a
diagnosed-but-tolerated `= expr` initializer, and trailing-ellipsis
handling.  The first component is `true` exactly when the lambda signals
failure; the variadic marker is recorded only when the ellipsis
immediately precedes the closing `)`. -/
def tupleElement : Nat → List TypeRepr → Option Nat → TokStream →
    Bool × List TypeRepr × Option Nat × TokStream × List Diag
  | 0, elems, ellip, st => (true, elems, ellip, st, [])
  | f+1, elems, ellip, st =>
    let labelled := isStartOfBindingName (headTok st) = true ∧ (peekTok st).kind = .colon
    let name := (headTok st).text
    let nameLoc := (headTok st).loc
    let stBody := if labelled then consume (consume st) else st
    match parseTypeAnnot .expected_type f stBody with
    | (none, st1, d1) => (true, elems, ellip, st1, d1)
    | (some ty, st1, d1) =>
      let elem := if labelled then TypeRepr.namedElt name ty nameLoc else ty
      let elems1 := elems ++ [elem]
      let (st2, d2) :=
        if (headTok st1).kind = .equal then
          let eqLoc := (headTok st1).loc
          match parseExpr .expected_initializer_expr f (consume st1) with
          | (_, s, d) => (s, d ++ [⟨.tuple_type_init, eqLoc⟩])
        else (st1, [])
      if (headTok st2).kind = .ellipsis then
        let eloc := (headTok st2).loc
        let st3 := consume st2
        if (headTok st3).kind = .r_paren then
          (false, elems1, some eloc, st3, d1 ++ d2)
        else
          (false, elems1, ellip, st3,
           d1 ++ d2 ++ [⟨.unexpected_ellipsis_in_tuple, eloc⟩])
      else (false, elems1, ellip, st2, d1 ++ d2)

/-- Mirrors `Parser::parseTypeAnnotation(Diag<>)` (named `parseTypeAnnot`
here): attributes, then a
type, then `applyAttributeToType`. -/
def parseTypeAnnot (msg : DiagKind) : Nat → TokStream → Option TypeRepr × TokStream × List Diag
  | 0, st => (none, st, [])
  | f+1, st =>
    let (attrs, st1) := parseAttributeList f st
    match parseType msg f st1 with
    | (oty, st2, d2) => (applyAttributeToType oty attrs, st2, d2)

/-- Mirrors `Parser::parseTypeArray` (the caller guarantees a following
`[`): the `[]` slice production recurs to build nested dimensions with the
current pair as the outer node; a size expression is parsed and the
closing `]` matched, but the fixed-length form is then unconditionally
rejected — with the "unsupported" diagnostic only on the fully parsed
path. -/
def parseTypeArray : Nat → TypeRepr → TokStream → Option TypeRepr × TokStream × List Diag
  | 0, _, st => (none, st, [])
  | f+1, base, st =>
    let lsquareLoc := (headTok st).loc
    let st1 := consume st
    if (headTok st1).kind = .r_square then
      let rsquareLoc := (headTok st1).loc
      let st2 := consume st1
      if isFollowingLSquare (headTok st2) = true then
        match parseTypeArray f base st2 with
        | (none, st3, d3) => (none, st3, d3)
        | (some inner, st3, d3) =>
          (some (.arrayType inner none lsquareLoc rsquareLoc), st3, d3)
      else
        (some (.arrayType base none lsquareLoc rsquareLoc), st2, [])
    else
      match parseExpr .expected_expr_array_type f st1 with
      | (none, st2, d2) => (none, st2, d2)
      | (some _, st2, d2) =>
        match parseMatchingToken .r_square .expected_rbracket_array_type st2 with
        | (none, st3, d3) => (none, st3, d2 ++ d3)
        | (some _, st3, d3) =>
          if isFollowingLSquare (headTok st3) = true then
            match parseTypeArray f base st3 with
            | (none, st4, d4) => (none, st4, d2 ++ d3 ++ d4)
            | (some _, st4, d4) =>
              (none, st4,
               d2 ++ d3 ++ d4 ++ [⟨.unsupported_fixed_length_array, lsquareLoc⟩])
          else
            (none, st3, d2 ++ d3 ++ [⟨.unsupported_fixed_length_array, lsquareLoc⟩])

/-- Mirrors `Parser::canParseType`, the prober's top-level entry: the same
dispatch and postfix chaining as `parseType`, boolean-valued. -/
def canParseType : Nat → TokStream → Bool × TokStream
  | 0, st => (false, st)
  | f+1, st =>
    let k := (headTok st).kind
    let simple : Bool × TokStream :=
      if k = .kw_This ∨ k = .identifier then canParseTypeIdentifier f st
      else if k = .kw_protocol then canParseTypeComposition f st
      else if k = .l_paren then canParseTypeTupleBody f (consume st)
      else (false, st)
    match simple with
    | (false, st1) => (false, st1)
    | (true, st1) => canParseTypeSuffixes f st1

/-- Mirrors the postfix chain of `canParseType` (lines 479-501), applied
after the simple type: the `.metatype` loop, then either an arrow
function — terminal, recursing into the result type — or the
optional-suffix loop followed by an array suffix. -/
def canParseTypeSuffixes : Nat → TokStream → Bool × TokStream
  | 0, st1 => (false, st1)
  | f+1, st1 =>
    let st2 := specMetatypeSuffixes st1
    if (headTok st2).kind = .arrow then
      canParseType f (consume st2)
    else
      let st4 := specOptionalSuffixes st2
      if isFollowingLSquare (headTok st4) = true then canParseTypeArray f st4
      else (true, st4)

/-- Mirrors `Parser::canParseTypeIdentifier`: entry check, then the
speculative component loop. -/
def canParseTypeIdentifier : Nat → TokStream → Bool × TokStream
  | 0, st => (false, st)
  | f+1, st =>
    if (headTok st).kind = .identifier ∨ (headTok st).kind = .kw_This then
      specIdentComponents f st
    else (false, st)

/-- Mirrors the component loop of `canParseTypeIdentifier`
(lines 509-533); the identifier-keyword token class of `Tokens.def` is
represented in our alphabet by the `This` keyword. -/
def specIdentComponents : Nat → TokStream → Bool × TokStream
  | 0, st => (false, st)
  | f+1, st =>
    if (headTok st).kind = .identifier ∨ (headTok st).kind = .kw_This then
      let st1 := consume st
      if startsWithLess (headTok st1) = true then
        match canParseGenericArguments f st1 with
        | (false, st2) => (false, st2)
        | (true, st2) =>
          if ((headTok st2).kind = .period ∨ (headTok st2).kind = .periodPfx)
              ∧ (peekTok st2).kind ≠ .kw_metatype then
            specIdentComponents f (consume st2)
          else (true, st2)
      else
        if ((headTok st1).kind = .period ∨ (headTok st1).kind = .periodPfx)
            ∧ (peekTok st1).kind ≠ .kw_metatype then
          specIdentComponents f (consume st1)
        else (true, st1)
    else (false, st)

/-- Mirrors `Parser::canParseGenericArguments`: require the opening `<`,
then the speculative argument loop. -/
def canParseGenericArguments : Nat → TokStream → Bool × TokStream
  | 0, st => (false, st)
  | f+1, st =>
    if startsWithLess (headTok st) = true then
      specGenericArgsList f (consumeStartingLess st).2
    else (false, st)

/-- Mirrors the argument loop of `canParseGenericArguments`
(lines 444-455): types separated by commas, then a required `>` with no
recovery. -/
def specGenericArgsList : Nat → TokStream → Bool × TokStream
  | 0, st => (false, st)
  | f+1, st =>
    match canParseType f st with
    | (false, st1) => (false, st1)
    | (true, st1) =>
      if (headTok st1).kind = .comma then specGenericArgsList f (consume st1)
      else if startsWithGreater (headTok st1) = true then
        (true, (consumeStartingGreater st1).2)
      else (false, st1)

/-- Mirrors `Parser::canParseTypeComposition`. -/
def canParseTypeComposition : Nat → TokStream → Bool × TokStream
  | 0, st => (false, st)
  | f+1, st =>
    let st1 := consume st
    if startsWithLess (headTok st1) = true then
      let st2 := (consumeStartingLess st1).2
      if startsWithGreater (headTok st2) = true then
        (true, (consumeStartingGreater st2).2)
      else specCompositionMembers f st2
    else (false, st1)

/-- Mirrors the member loop of `canParseTypeComposition` (lines 552-564):
identifiers separated by commas, then a required `>` with no recovery. -/
def specCompositionMembers : Nat → TokStream → Bool × TokStream
  | 0, st => (false, st)
  | f+1, st =>
    match canParseTypeIdentifier f st with
    | (false, st1) => (false, st1)
    | (true, st1) =>
      if (headTok st1).kind = .comma then specCompositionMembers f (consume st1)
      else if startsWithGreater (headTok st1) = true then
        (true, (consumeStartingGreater st1).2)
      else (false, st1)

/-- Mirrors `Parser::canParseTypeTupleBody` (the `(` was consumed by
`canParseType`): unless the body is empty-ish (closer, ellipsis, or
declaration start first), run the speculative element loop; then an
optional ellipsis and the required `)`. -/
def canParseTypeTupleBody : Nat → TokStream → Bool × TokStream
  | 0, st => (false, st)
  | f+1, st =>
    let t := headTok st
    let body : Bool × TokStream :=
      if t.kind ≠ .r_paren ∧ t.kind ≠ .r_brace ∧ t.kind ≠ .ellipsis
          ∧ isStartOfDecl t = false then
        specTupleElements f st
      else (true, st)
    match body with
    | (false, st1) => (false, st1)
    | (true, st1) =>
      let st2 := (consumeIfKind .ellipsis st1).2
      if (headTok st2).kind = .r_paren then (true, consume st2)
      else (false, st2)

/-- Mirrors the element loop of `canParseTypeTupleBody` (lines 570-621):
an `ident :` label with attribute tolerance and default-value skipping, or
a bare type with attribute tolerance; elements separated by commas. -/
def specTupleElements : Nat → TokStream → Bool × TokStream
  | 0, st => (false, st)
  | f+1, st =>
    if (headTok st).kind = .identifier ∧ (peekTok st).kind = .colon then
      let st1 := consume (consume st)
      match specTupleAttr f st1 with
      | (false, st2) => (false, st2)
      | (true, st2) =>
        match canParseType f st2 with
        | (false, st3) => (false, st3)
        | (true, st3) =>
          let st4 :=
            if (headTok st3).kind = .equal then specSkipDefault f (consume st3)
            else st3
          if (headTok st4).kind = .comma then specTupleElements f (consume st4)
          else (true, st4)
    else
      match specTupleAttr f st with
      | (false, st2) => (false, st2)
      | (true, st2) =>
        match canParseType f st2 with
        | (false, st3) => (false, st3)
        | (true, st3) =>
          if (headTok st3).kind = .comma then specTupleElements f (consume st3)
          else (true, st3)

/-- Mirrors `Parser::canParseTypeArray` (the caller guarantees a
following `[`): only the `[]` slice production, possibly recursive; a size
expression is rejected outright. -/
def canParseTypeArray : Nat → TokStream → Bool × TokStream
  | 0, st => (false, st)
  | f+1, st =>
    let st1 := consume st
    if (headTok st1).kind = .r_square then
      let st2 := consume st1
      if isFollowingLSquare (headTok st2) = true then canParseTypeArray f st2
      else (true, st2)
    else (false, st1)

end

/-- Mirrors `isGenericTypeDisambiguatingToken` (lines 400-424). -/
def isGenericTypeDisambiguatingToken (t : Token) : Bool :=
  match t.kind with
  | .r_paren | .r_square | .l_brace | .r_brace
  | .period | .comma | .semi | .eof => true
  | .periodPfx => t.prevChar = '>'
  | .l_paren | .l_square => !t.atStartOfLine
  | _ => false

/-- Mirrors `Parser::canParseAsGenericArgumentList`: an exact `<` operator
token, then — inside a backtracking scope that restores the cursor on
every exit path — `canParseGenericArguments` followed by the
disambiguating-token check on the token after the closing `>`. -/
def canParseAsGenericArgumentList (f : Nat) (st : TokStream) : Bool × TokStream :=
  if isAnyOperator (headTok st) = true ∧ (headTok st).text = "<" then
    match canParseGenericArguments f st with
    | (true, st1) => (isGenericTypeDisambiguatingToken (headTok st1), st)
    | (false, _) => (false, st)
  else (false, st)

/-- A sample token with the given kind, text and location (not at the
start of a line, preceded by a space), for the concrete theorems below. -/
def mkTok (k : TokenKind) (s : String) (l : Nat) : Token :=
  ⟨k, s, false, ' ', l⟩

/-- Token stream for `T[][]` followed by end-of-input. -/
def c9_toks : TokStream :=
  [mkTok .identifier "T" 1, mkTok .l_square "[" 2, mkTok .r_square "]" 3,
   mkTok .l_square "[" 4, mkTok .r_square "]" 5, mkTok .eof "" 6]

/-- C9: parsing `T[][]` yields an `Array` node whose base is `Array(T)`:
the node for the first (lexically outer) bracket pair wraps the node built
by the recursive call for the later bracket pair, whose innermost base is
`T`; the whole input is consumed. -/
theorem c9_array_nesting :
    parseType .expected_type 20 c9_toks =
      (some (.arrayType
               (.arrayType (.identType [.mk 1 "T" [] none]) none 4 5)
               none 2 3),
       [mkTok .eof "" 6], []) := rfl

/-- Token stream for `<1 junk> X`: the first generic argument is
malformed. -/
def c10_toks₁ : TokStream :=
  [mkTok .oper "<" 1, mkTok .int_lit "1" 2, mkTok .identifier "junk" 3,
   mkTok .oper ">" 4, mkTok .identifier "X" 5, mkTok .eof "" 6]

/-- Token stream for `<Int Int2> X`: the closing `>` does not directly
follow the argument list. -/
def c10_toks₂ : TokStream :=
  [mkTok .oper "<" 1, mkTok .identifier "Int" 2, mkTok .identifier "Int2" 3,
   mkTok .oper ">" 4, mkTok .identifier "X" 5, mkTok .eof "" 6]

/-- C10: when the committed `parseGenericArguments` fails — on a malformed
argument type, or on a missing closing `>` — it does not restore the token
cursor: it skips forward past the offending tokens, consumes the next
operator token when it starts with `>`, and leaves the cursor there (on
`X` in both streams), so generic-argument failure is not atomic. -/
theorem c10_generic_failure_not_atomic :
    ((parseGenericArguments 20 c10_toks₁).1 = none ∧
     (parseGenericArguments 20 c10_toks₁).2.1 =
       [mkTok .identifier "X" 5, mkTok .eof "" 6]) ∧
    ((parseGenericArguments 20 c10_toks₂).1 = none ∧
     (parseGenericArguments 20 c10_toks₂).2.1 =
       [mkTok .identifier "X" 5, mkTok .eof "" 6]) :=
  ⟨⟨rfl, rfl⟩, ⟨rfl, rfl⟩⟩

/-- C6: `canParseAsGenericArgumentList` is pure lookahead — on every exit
path, whatever the verdict, the token cursor it hands back is exactly the
cursor it was given (the backtracking scope rolls all consumption back). -/
theorem c6_lookahead_restores_cursor (f : Nat) (st : TokStream) :
    (canParseAsGenericArgumentList f st).2 = st := by
  unfold canParseAsGenericArgumentList
  split
  · rcases h : canParseGenericArguments f st with ⟨ok, st1⟩
    cases ok <;> simp
  · rfl

/-- The disambiguating set exactly as the specification words it, used
only to compare the spec's wording against the code's
`isGenericTypeDisambiguatingToken`: closing delimiters, comma, semicolon,
end-of-input, a dot/period whose immediately preceding character was `>`,
or an opening paren/bracket not at the start of a new line. -/
def specDisambiguatingToken (t : Token) : Bool :=
  match t.kind with
  | .r_paren | .r_square | .r_brace | .comma | .semi | .eof => true
  | .period | .periodPfx => t.prevChar == '>'
  | .l_paren | .l_square => !t.atStartOfLine
  | _ => false

/-- C5 (amended): the code's disambiguating set accepts — after the probed
generic-argument list — the closing delimiters, an opening brace
(unconditionally, even at the start of a line), comma, semicolon,
end-of-input, any plain period (unconditionally, with no condition on the
preceding character), a prefix period whose immediately preceding
character was `>`, and an opening paren/bracket not at the start of a new
line; and `canParseAsGenericArgumentList` returns true exactly when the
current token is the exact `<` operator, `canParseGenericArguments`
succeeds, and the token at its stopping point is in that set. -/
theorem c5_amended :
    (∀ t : Token, isGenericTypeDisambiguatingToken t = true ↔
      (t.kind = .r_paren ∨ t.kind = .r_square ∨ t.kind = .l_brace
        ∨ t.kind = .r_brace ∨ t.kind = .period ∨ t.kind = .comma
        ∨ t.kind = .semi ∨ t.kind = .eof
        ∨ (t.kind = .periodPfx ∧ t.prevChar = '>')
        ∨ ((t.kind = .l_paren ∨ t.kind = .l_square) ∧ t.atStartOfLine = false))) ∧
    (∀ (f : Nat) (st : TokStream),
      (canParseAsGenericArgumentList f st).1 = true ↔
        (isAnyOperator (headTok st) = true ∧ (headTok st).text = "<"
          ∧ (canParseGenericArguments f st).1 = true
          ∧ isGenericTypeDisambiguatingToken
              (headTok (canParseGenericArguments f st).2) = true)) := by
  constructor
  · intro t
    rcases t with ⟨k, s, sol, pc, l⟩
    cases k <;> simp [isGenericTypeDisambiguatingToken]
  · intro f st
    unfold canParseAsGenericArgumentList
    rcases hg : canParseGenericArguments f st with ⟨ok, st1⟩
    by_cases hc : isAnyOperator (headTok st) = true ∧ (headTok st).text = "<"
    · rw [if_pos hc]
      cases ok <;> simp [hg, hc]
    · rw [if_neg hc]
      simp only [hg]
      constructor
      · intro h; cases h
      · rintro ⟨h1, h2, -, -⟩; exact absurd ⟨h1, h2⟩ hc

/-- Token stream for `<Int>` followed by a plain period token whose
preceding source character is `x`, then end-of-input. -/
def c5_toks : TokStream :=
  [mkTok .oper "<" 1, mkTok .identifier "Int" 2, mkTok .oper ">" 3,
   ⟨.period, ".", false, 'x', 4⟩, mkTok .eof "" 5]

/-- C5 counterexample: `canParseAsGenericArgumentList` returns true on
`<Int>` followed by a plain period preceded by `x`, a token outside the
set the claim describes (the spec-worded set — `specDisambiguatingToken` —
rejects it, since the character before the period is not `>`). -/
theorem c5_counterexample :
    (canParseAsGenericArgumentList 20 c5_toks).1 = true ∧
    specDisambiguatingToken (headTok (canParseGenericArguments 20 c5_toks).2)
      = false :=
  ⟨rfl, rfl⟩

/-- In the size-expression branch (the token after the consumed `[` is not
`]`), `parseTypeArray` never produces a node — whatever happens to the
size expression, the closing bracket, or further bracket clauses. -/
theorem parseTypeArray_size_none (f : Nat) (base : TypeRepr) (st : TokStream)
    (h : (peekTok st).kind ≠ .r_square) :
    (parseTypeArray f base st).1 = none := by
  cases f with
  | zero => rfl
  | succ f =>
    have h' : ¬((headTok (consume st)).kind = .r_square) := h
    simp only [parseTypeArray]
    rw [if_neg h']
    rcases hx : parseExpr .expected_expr_array_type f (consume st)
      with ⟨_ | e, st2, d2⟩
    · rfl
    · rcases hm : parseMatchingToken .r_square .expected_rbracket_array_type st2
        with ⟨_ | loc, st3, d3⟩
      · simp [hm]
      · simp only [hm]
        split
        · rcases hr : parseTypeArray f base st3 with ⟨_ | inner, st4, d4⟩ <;>
            simp [hr]
        · rfl

/-- Token stream for `Int[ } ]`: the array-size position holds a token
that cannot begin an expression. -/
def c2_toks₁ : TokStream :=
  [mkTok .identifier "Int" 1, mkTok .l_square "[" 2, mkTok .r_brace "\x7d" 3,
   mkTok .r_square "]" 4, mkTok .eof "" 5]

/-- Token stream for `Int[4]`: a well-formed fixed-size array type. -/
def c2_toks₂ : TokStream :=
  [mkTok .identifier "Int" 1, mkTok .l_square "[" 2, mkTok .int_lit "4" 3,
   mkTok .r_square "]" 4, mkTok .eof "" 5]

/-- C2 (amended): whenever the array suffix contains a size expression,
`parseTypeArray` returns nothing, at every fuel; but the "unsupported
fixed-length array" diagnostic is emitted only when the size expression
parses and the closing bracket matches (as on `Int[4]`) — when the size
expression itself fails to parse (as on `Int[ } ]`), only the
expression-level diagnostic is emitted. -/
theorem c2_amended :
    (∀ (f : Nat) (base : TypeRepr) (st : TokStream),
        (peekTok st).kind ≠ .r_square → (parseTypeArray f base st).1 = none) ∧
    (parseType .expected_type 20 c2_toks₂).2.2 =
      [⟨.unsupported_fixed_length_array, 2⟩] ∧
    (parseType .expected_type 20 c2_toks₁).2.2 =
      [⟨.expected_expr_array_type, 3⟩] :=
  ⟨parseTypeArray_size_none, rfl, rfl⟩

/-- C2 witness: the general part of the amended claim applied to the
concrete suffix `[4]` of `Int[4]`. -/
theorem c2_witness :
    (parseTypeArray 20 (TypeRepr.identType [.mk 1 "Int" [] none])
      [mkTok .l_square "[" 2, mkTok .int_lit "4" 3, mkTok .r_square "]" 4,
       mkTok .eof "" 5]).1 = none :=
  c2_amended.1 20 (TypeRepr.identType [.mk 1 "Int" [] none]) _ (by decide)

/-- C2 counterexample: on `Int[ } ]` the committed parse returns nothing —
but, contrary to the claim, without the "unsupported fixed-length array"
diagnostic: only the expression diagnostic is emitted, because the size
expression failed to parse. -/
theorem c2_counterexample :
    (parseType .expected_type 20 c2_toks₁).1 = none ∧
    ∀ d ∈ (parseType .expected_type 20 c2_toks₁).2.2,
      d.kind ≠ .unsupported_fixed_length_array :=
  ⟨rfl, by decide⟩

/-- Token stream for `Foo.bar`. -/
def c4_toks : TokStream :=
  [mkTok .identifier "Foo" 1, mkTok .period "." 2, mkTok .identifier "bar" 3,
   mkTok .eof "" 4]

/-- Token stream for `().bar`. -/
def c4_tuple_toks : TokStream :=
  [mkTok .l_paren "(" 1, mkTok .r_paren ")" 2, mkTok .period "." 3,
   mkTok .identifier "bar" 4, mkTok .eof "" 5]

/-- C4 counterexample: on `Foo.bar` the committed type parser does consume
past `Foo` — the period is taken as a dotted-path separator by
`parseTypeIdentifier` and `bar` becomes a second path component; the
cursor ends at end-of-input, not at the period. -/
theorem c4_counterexample :
    parseType .expected_type 20 c4_toks =
      (some (.identType [.mk 1 "Foo" [] none, .mk 3 "bar" [] none]),
       [mkTok .eof "" 4], []) := rfl

/-- C4 (amended): the metatype-suffix loop of `parseType` consumes a
period only when the token after it is the `metatype` keyword — with any
other follower it leaves the separator untouched.  Hence after a
non-identifier simple type, e.g. `().bar`, the parse stops before the
period and leaves `.bar` to an outer consumer; but after an identifier the
period is instead consumed by `parseTypeIdentifier` itself as a path
separator, so `Foo.bar` parses as a two-component dotted path. -/
theorem c4_amended :
    (∀ (ty : TypeRepr) (st : TokStream),
        ((headTok st).kind = .period ∨ (headTok st).kind = .periodPfx) →
        (peekTok st).kind ≠ .kw_metatype →
        metatypeSuffixes ty st = (ty, st)) ∧
    ((parseType .expected_type 20 c4_tuple_toks).1 =
        some (.tupleType [] 1 3 none) ∧
     (parseType .expected_type 20 c4_tuple_toks).2.1 =
        [mkTok .period "." 3, mkTok .identifier "bar" 4, mkTok .eof "" 5]) ∧
    (parseType .expected_type 20 c4_toks).2.1 = [mkTok .eof "" 4] := by
  refine ⟨?_, ⟨rfl, rfl⟩, rfl⟩
  intro ty st h1 h2
  rcases st with _ | ⟨t1, _ | ⟨t2, rest⟩⟩
  · simp [headTok, eofToken] at h1
  · rfl
  · have hc : ¬((t1.kind = .period ∨ t1.kind = .periodPfx)
        ∧ t2.kind = .kw_metatype) := by
      rintro ⟨-, hmt⟩
      exact h2 hmt
    simp [metatypeSuffixes, hc]

/-- C4 witness: the metatype-loop part of the amended claim applied at the
concrete suffix `.bar` of `().bar`. -/
theorem c4_witness :
    metatypeSuffixes (.tupleType [] 1 3 none)
      [mkTok .period "." 3, mkTok .identifier "bar" 4, mkTok .eof "" 5] =
      (.tupleType [] 1 3 none,
       [mkTok .period "." 3, mkTok .identifier "bar" 4, mkTok .eof "" 5]) :=
  c4_amended.1 _ _ (by decide) (by decide)


/-- Whether a type node is an `Attributed` wrapper. -/
def isAttrRepr : TypeRepr → Bool
  | .attributed _ _ => true
  | _ => false

/-- Whether a parse result is an `Attributed` wrapper node. -/
def isAttributedNode : Option TypeRepr → Bool
  | some (.attributed _ _) => true
  | _ => false

/-- Relate the two attribute-shape observers. -/
theorem isAttributedNode_some (r : TypeRepr) :
    isAttributedNode (some r) = isAttrRepr r := by
  cases r <;> rfl

/-- The metatype-suffix loop only ever wraps in `metaType`; if its result
is an `Attributed` node, the input already was one. -/
theorem metatypeSuffixes_attr : ∀ (ty : TypeRepr) (st : TokStream),
    isAttrRepr (metatypeSuffixes ty st).1 = true → isAttrRepr ty = true
  | _, [] => fun h => h
  | _, [_] => fun h => h
  | ty, t1 :: t2 :: rest => by
    simp only [metatypeSuffixes]
    split
    · intro h
      have := metatypeSuffixes_attr (.metaType ty t2.loc) rest h
      simp [isAttrRepr] at this
    · exact fun h => h

/-- The optional-suffix loop only ever wraps in `optionalType`; if its
result is an `Attributed` node, the input already was one. -/
theorem optionalSuffixes_attr : ∀ (ty : TypeRepr) (st : TokStream),
    isAttrRepr (optionalSuffixes ty st).1 = true → isAttrRepr ty = true
  | _, [] => fun h => h
  | ty, t :: rest => by
    simp only [optionalSuffixes]
    split
    · intro h
      have := optionalSuffixes_attr (.optionalType ty t.loc) rest h
      simp [isAttrRepr] at this
    · exact fun h => h

/-- `parseTypeIdentifier` only builds `identType` nodes. -/
theorem parseTypeIdentifier_not_attr (f : Nat) (st : TokStream) (r : TypeRepr)
    (h : (parseTypeIdentifier f st).1 = some r) : isAttrRepr r = false := by
  cases f with
  | zero => simp [parseTypeIdentifier] at h
  | succ f =>
    simp only [parseTypeIdentifier] at h
    split at h
    · rcases hic : identComponents f [] st with ⟨_ | comps, st1, d1⟩ <;>
        rw [hic] at h <;> simp at h
      subst h; rfl
    · simp at h

/-- `compositionFinish` only builds `protoComp` nodes. -/
theorem compositionFinish_not_attr (f protocolLoc lAngleLoc : Nat)
    (invalid : Bool) (members : List TypeRepr) (st : TokStream) (r : TypeRepr)
    (h : (compositionFinish f protocolLoc lAngleLoc invalid members st).1 = some r) :
    isAttrRepr r = false := by
  unfold compositionFinish at h
  split at h
  · simp at h; subst h; rfl
  · split at h <;> (dsimp only at h; split at h) <;> simp at h <;>
      subst h <;> rfl

/-- `parseTypeComposition` only builds `protoComp` nodes. -/
theorem parseTypeComposition_not_attr (f : Nat) (st : TokStream) (r : TypeRepr)
    (h : (parseTypeComposition f st).1 = some r) : isAttrRepr r = false := by
  cases f with
  | zero => simp [parseTypeComposition] at h
  | succ f =>
    simp only [parseTypeComposition] at h
    split at h
    · split at h
      · simp at h; subst h; rfl
      · rcases hcm : compositionMembers f [] (consumeStartingLess (consume st)).2
          with ⟨inv, ms, st3, d3⟩
        rw [hcm] at h
        rcases hcf : compositionFinish f (headTok st).loc
            (consumeStartingLess (consume st)).1 inv ms st3
          with ⟨_ | r', st4, d4⟩ <;> rw [hcf] at h <;> simp at h
        subst h
        exact compositionFinish_not_attr _ _ _ _ _ _ _ (by rw [hcf])
    · simp at h

/-- `tupleBodyFinish` only builds `tupleType` nodes. -/
theorem tupleBodyFinish_not_attr (lpLoc : Nat) (elems : List TypeRepr)
    (ellip : Option Nat) (st : TokStream) (r : TypeRepr)
    (h : (tupleBodyFinish lpLoc elems ellip st).1 = some r) :
    isAttrRepr r = false := by
  unfold tupleBodyFinish at h
  rcases ellip with _ | eloc
  · simp at h; subst h; rfl
  · simp only at h
    split at h <;> simp at h
    subst h; rfl

/-- `parseTypeTupleBody` only builds `tupleType` nodes. -/
theorem parseTypeTupleBody_not_attr (f : Nat) (st : TokStream) (r : TypeRepr)
    (h : (parseTypeTupleBody f st).1 = some r) : isAttrRepr r = false := by
  cases f with
  | zero => simp [parseTypeTupleBody] at h
  | succ f =>
    simp only [parseTypeTupleBody] at h
    rcases hte : tupleElements f [] none (consume st) with ⟨elems, ellip, st2, d2⟩
    rw [hte] at h
    rcases htf : tupleBodyFinish (headTok st).loc elems ellip st2
        with ⟨_ | r', st3, d3⟩ <;> rw [htf] at h <;> simp at h
    subst h
    exact tupleBodyFinish_not_attr _ _ _ _ _ (by rw [htf])

/-- `parseTypeArray` only builds `arrayType` nodes. -/
theorem parseTypeArray_not_attr (f : Nat) (base : TypeRepr) (st : TokStream)
    (r : TypeRepr) (h : (parseTypeArray f base st).1 = some r) :
    isAttrRepr r = false := by
  cases f with
  | zero => simp [parseTypeArray] at h
  | succ f =>
    simp only [parseTypeArray] at h
    split at h
    · split at h
      · rcases hr : parseTypeArray f base (consume (consume st))
            with ⟨_ | inner, st3, d3⟩ <;> rw [hr] at h <;> simp at h
        subst h; rfl
      · simp at h; subst h; rfl
    · rcases hx : parseExpr .expected_expr_array_type f (consume st)
        with ⟨_ | e, st2, d2⟩ <;> rw [hx] at h
      · simp at h
      · dsimp only at h
        rcases hm : parseMatchingToken .r_square .expected_rbracket_array_type st2
          with ⟨_ | loc, st3, d3⟩ <;> rw [hm] at h
        · simp at h
        · dsimp only at h
          split at h
          · rcases hr : parseTypeArray f base st3 with ⟨_ | inner, st4, d4⟩ <;>
              rw [hr] at h <;> simp at h
          · simp at h

/-- The committed type grammar itself never returns an `Attributed` node:
only `parseTypeAnnot` wraps, after the type has been parsed. -/
theorem parseType_not_attr : ∀ (f : Nat),
    (∀ (msg : DiagKind) (st : TokStream) (r : TypeRepr),
        (parseType msg f st).1 = some r → isAttrRepr r = false) ∧
    (∀ (ty0 : TypeRepr) (st1 : TokStream) (r : TypeRepr),
        isAttrRepr ty0 = false →
        (parseTypeSuffixes f ty0 st1).1 = some r → isAttrRepr r = false) := by
  intro f
  induction f with
  | zero =>
    refine ⟨fun msg st r h => ?_, fun ty0 st1 r _ h => ?_⟩
    · simp [parseType] at h
    · simp [parseTypeSuffixes] at h
  | succ f ih =>
    obtain ⟨ihT, ihS⟩ := ih
    constructor
    · intro msg st r h
      simp only [parseType] at h
      rcases hsim : (if (headTok st).kind = .kw_This ∨ (headTok st).kind = .identifier
          then parseTypeIdentifier f st
          else if (headTok st).kind = .kw_protocol then parseTypeComposition f st
          else if (headTok st).kind = .l_paren then parseTypeTupleBody f st
          else (none, st, [⟨msg, (headTok st).loc⟩]))
        with ⟨_ | ty0, st1, d1⟩ <;> rw [hsim] at h
      · simp at h
      · dsimp only at h
        rcases hsx : parseTypeSuffixes f ty0 st1 with ⟨oty, st2, d2⟩
        rw [hsx] at h
        simp at h
        subst h
        have hty0 : isAttrRepr ty0 = false := by
          by_cases h1 : (headTok st).kind = .kw_This ∨ (headTok st).kind = .identifier
          · rw [if_pos h1] at hsim
            exact parseTypeIdentifier_not_attr f st ty0 (by rw [hsim])
          · rw [if_neg h1] at hsim
            by_cases h2 : (headTok st).kind = .kw_protocol
            · rw [if_pos h2] at hsim
              exact parseTypeComposition_not_attr f st ty0 (by rw [hsim])
            · rw [if_neg h2] at hsim
              by_cases h3 : (headTok st).kind = .l_paren
              · rw [if_pos h3] at hsim
                exact parseTypeTupleBody_not_attr f st ty0 (by rw [hsim])
              · rw [if_neg h3] at hsim
                simp at hsim
        exact ihS ty0 st1 r hty0 (by rw [hsx])
    · intro ty0 st1 r h0 h
      simp only [parseTypeSuffixes] at h
      rcases hm : metatypeSuffixes ty0 st1 with ⟨ty2, st2⟩
      rw [hm] at h
      have hty2 : isAttrRepr ty2 = false := by
        cases hv : isAttrRepr ty2
        · rfl
        · have := metatypeSuffixes_attr ty0 st1 (by rw [hm]; exact hv)
          rw [this] at h0; cases h0
      split at h
      · rcases hp : parseType .expected_type_function_result f (consume st2)
          with ⟨_ | cod, st3, d3⟩ <;> rw [hp] at h <;> simp at h
        subst h; rfl
      · rcases ho : optionalSuffixes ty2 st2 with ⟨ty4, st4⟩
        rw [ho] at h
        split at h
        · exact parseTypeArray_not_attr f ty4 st4 r h
        · simp at h
          subst h
          cases hv : isAttrRepr ty4
          · rfl
          · have := optionalSuffixes_attr ty2 st2 (by rw [ho]; exact hv)
            rw [this] at hty2; cases hty2

/-- Token stream for `[a] ;`: an attribute list followed by a token that
cannot start a type. -/
def c3_toks : TokStream :=
  [mkTok .l_square "[" 1, mkTok .identifier "a" 2, mkTok .r_square "]" 3,
   mkTok .semi ";" 4, mkTok .eof "" 5]

/-- C3 counterexample: on an attribute list followed by no type (`[a] ;`),
the inner type parse fails, yet `parseTypeAnnot` does not return
nothing — `applyAttributeToType` wraps even the null type in an
`Attributed` node because an attribute is present. -/
theorem c3_counterexample :
    (parseType .expected_type 19 (parseAttributeList 19 c3_toks).2).1 = none ∧
    (parseTypeAnnot .expected_type 20 c3_toks).1 =
      some (.attributed [mkTok .identifier "a" 2] none) :=
  ⟨rfl, rfl⟩

/-- C3 (amended): `parseTypeAnnot` returns nothing exactly when no
attribute was present and the type parse failed; its result is an
`Attributed` wrapper exactly when at least one attribute was present —
in that case even a failed type parse is wrapped (as a null inner type)
rather than propagated — and with no attributes the type parse's result
is passed through unwrapped. -/
theorem c3_amended (msg : DiagKind) (f : Nat) (st : TokStream) :
    ((parseTypeAnnot msg (f+1) st).1 = none ↔
      ((parseAttributeList f st).1 = [] ∧
       (parseType msg f (parseAttributeList f st).2).1 = none)) ∧
    (isAttributedNode (parseTypeAnnot msg (f+1) st).1 = true ↔
      (parseAttributeList f st).1 ≠ []) ∧
    ((parseAttributeList f st).1 = [] →
      (parseTypeAnnot msg (f+1) st).1 =
        (parseType msg f (parseAttributeList f st).2).1) := by
  rcases hA : parseAttributeList f st with ⟨attrs, st1⟩
  rcases hT : parseType msg f st1 with ⟨oty, st2, d2⟩
  have hU : (parseTypeAnnot msg (f+1) st).1 = applyAttributeToType oty attrs := by
    simp only [parseTypeAnnot, hA]
    rw [hT]
  refine ⟨?_, ?_, ?_⟩
  · rw [hU]
    unfold applyAttributeToType
    rcases attrs with _ | ⟨a, as⟩ <;> simp
  · rw [hU]
    rcases attrs with _ | ⟨a, as⟩
    · rcases hoty : oty with _ | r
      · simp [applyAttributeToType, isAttributedNode]
      · have hr := (parseType_not_attr f).1 msg st1 r (by rw [hT, hoty])
        simp [applyAttributeToType, isAttributedNode_some, hr]
    · simp [applyAttributeToType, isAttributedNode]
  · intro ha
    simp only at ha
    subst ha
    rw [hU]
    simp [applyAttributeToType]

/-- C3 witness: the pass-through part of the amended claim at a concrete
input with no attributes (`Int`), where annotation and plain type parse
agree. -/
theorem c3_witness :
    (parseTypeAnnot .expected_type 20 [mkTok .identifier "Int" 1, mkTok .eof "" 2]).1 =
      (parseType .expected_type 19
        (parseAttributeList 19 [mkTok .identifier "Int" 1, mkTok .eof "" 2]).2).1 :=
  (c3_amended .expected_type 19 [mkTok .identifier "Int" 1, mkTok .eof "" 2]).2.2 rfl

/-- Token stream for `protocol<A B> X`: a protocol composition whose
member list ends (missing comma) before the closing `>`. -/
def c7_toks : TokStream :=
  [mkTok .kw_protocol "protocol" 1, mkTok .oper "<" 2, mkTok .identifier "A" 3,
   mkTok .identifier "B" 4, mkTok .oper ">" 5, mkTok .identifier "X" 6,
   mkTok .eof "" 7]

/-- C7: when `parseTypeComposition` reaches the end of its member list
without a closing `>` (and no member failed), it diagnoses the missing
close plus a note at the opening `<`, skips forward to the nearest
operator token — consuming it when it starts with `>` — and still returns
a composition node built from the members that parsed; concretely,
`protocol<A B>` recovers with member `A`, both diagnostics, and the
cursor past the `>`. -/
theorem c7_composition_recovery :
    (∀ (f protocolLoc lAngleLoc : Nat) (members : List TypeRepr) (st : TokStream),
        startsWithGreater (headTok st) = false →
        compositionFinish f protocolLoc lAngleLoc false members st =
          (some (.protoComp members protocolLoc lAngleLoc
             (if startsWithGreater (headTok (skipUntilAnyOperator f st)) = true
              then (consumeStartingGreater (skipUntilAnyOperator f st)).1
              else (headTok st).loc)),
           (if startsWithGreater (headTok (skipUntilAnyOperator f st)) = true
            then (consumeStartingGreater (skipUntilAnyOperator f st)).2
            else skipUntilAnyOperator f st),
           [⟨.expected_rangle_protocol, (headTok st).loc⟩,
            ⟨.opening_angle, lAngleLoc⟩])) ∧
    parseType .expected_type 20 c7_toks =
      (some (.protoComp [.identType [.mk 3 "A" [] none]] 1 2 5),
       [mkTok .identifier "X" 6, mkTok .eof "" 7],
       [⟨.expected_rangle_protocol, 4⟩, ⟨.opening_angle, 2⟩]) := by
  refine ⟨?_, rfl⟩
  intro f pL lA ms st h
  unfold compositionFinish
  rw [if_neg (by simp [h])]
  dsimp only
  rcases hg : consumeStartingGreater (skipUntilAnyOperator f st) with ⟨endLoc, st2⟩
  split <;> simp [hg]

/-- C7 witness: the recovery equation applied at a concrete member-loop
exit state (`B >` remaining, no member failure). -/
theorem c7_witness :
    compositionFinish 10 1 2 false []
      [mkTok .identifier "B" 4, mkTok .oper ">" 5, mkTok .eof "" 6] =
      (some (.protoComp [] 1 2 5), [mkTok .eof "" 6],
       [⟨.expected_rangle_protocol, 4⟩, ⟨.opening_angle, 2⟩]) :=
  c7_composition_recovery.1 10 1 2 []
    [mkTok .identifier "B" 4, mkTok .oper ">" 5, mkTok .eof "" 6] rfl

/-- Token stream for `(Int...)`. -/
def c8_toks₁ : TokStream :=
  [mkTok .l_paren "(" 1, mkTok .identifier "Int" 2, mkTok .ellipsis "..." 3,
   mkTok .r_paren ")" 4, mkTok .eof "" 5]

/-- Token stream for `(...)`. -/
def c8_toks₂ : TokStream :=
  [mkTok .l_paren "(" 1, mkTok .ellipsis "..." 2, mkTok .r_paren ")" 3,
   mkTok .eof "" 4]

/-- C8 counterexample: on `(...)` — the claim's own example —
`parseTypeTupleBody` does not return nothing: the element type parse fails
first, recovery skips the ellipsis, and a zero-element, non-variadic tuple
node is returned with no "empty tuple cannot be variadic" diagnostic. -/
theorem c8_counterexample :
    (parseTypeTupleBody 20 c8_toks₂).1 = some (.tupleType [] 1 4 none) ∧
    ∀ d ∈ (parseTypeTupleBody 20 c8_toks₂).2.2,
      d.kind ≠ .empty_tuple_ellipsis :=
  ⟨rfl, by decide⟩

/-- C8 (amended): the zero-element-variadic guard at the end of
`parseTypeTupleBody` does diagnose and return nothing whenever the
variadic marker is set with no elements — but that situation is not
reached from `(...)`, where the element parse fails before the ellipsis
handler and recovery yields a zero-element non-variadic node with only an
"expected type" diagnostic; `(Int...)` succeeds with the variadic marker
and the ellipsis location recorded. -/
theorem c8_variadic_tuples :
    (∀ (lpLoc eloc : Nat) (st : TokStream),
        tupleBodyFinish lpLoc [] (some eloc) st =
          (none, st, [⟨.empty_tuple_ellipsis, eloc⟩])) ∧
    (parseTypeTupleBody 20 c8_toks₁).1 =
      some (.tupleType [.identType [.mk 2 "Int" [] none]] 1 5 (some 3)) ∧
    (parseTypeTupleBody 20 c8_toks₂).1 = some (.tupleType [] 1 4 none) ∧
    (parseTypeTupleBody 20 c8_toks₂).2.2 = [⟨.expected_type, 2⟩] :=
  ⟨fun _ _ _ => rfl, rfl, rfl, rfl⟩

/-- Token stream for `protocol<Int` (missing `>`). -/
def c1_toks₁ : TokStream :=
  [mkTok .kw_protocol "protocol" 1, mkTok .oper "<" 2, mkTok .identifier "Int" 3,
   mkTok .eof "" 4]

/-- Token stream for `(Int = 3)` (a diagnosed-but-tolerated tuple
initializer). -/
def c1_toks₂ : TokStream :=
  [mkTok .l_paren "(" 1, mkTok .identifier "Int" 2, mkTok .equal "=" 3,
   mkTok .int_lit "3" 4, mkTok .r_paren ")" 5, mkTok .eof "" 6]

/-- C1 counterexample: the two modes do not accept the same language.  On
`protocol<Int` (missing `>`) the committed parser recovers and returns a
composition node while the prober returns false; on `(Int = 3)` the
committed parser diagnoses the initializer but returns a tuple node while
the prober — whose default-value skipping exists only behind a label —
returns false. -/
theorem c1_counterexample :
    ((parseType .expected_type 20 c1_toks₁).1.isSome = true ∧
     (canParseType 20 c1_toks₁).1 = false) ∧
    ((parseType .expected_type 20 c1_toks₂).1.isSome = true ∧
     (canParseType 20 c1_toks₂).1 = false) :=
  ⟨⟨rfl, rfl⟩, ⟨rfl, rfl⟩⟩

/-- A token that can open neither a tuple body nor a protocol composition.
On streams of such tokens the committed parser performs no list recovery,
and the two modes provably agree. -/
def cleanTok (t : Token) : Prop := t.kind ≠ .l_paren ∧ t.kind ≠ .kw_protocol

/-- A stream free of `(` and of the `protocol` keyword. -/
def cleanStream (st : TokStream) : Prop := ∀ t ∈ st, cleanTok t

/-- Decidability, so concrete witnesses can be checked by `decide`. -/
instance (st : TokStream) : Decidable (cleanStream st) := by
  unfold cleanStream cleanTok
  infer_instance

/-- The head of a clean stream is clean (the end-of-input token is). -/
theorem cleanStream_headTok {st : TokStream} (h : cleanStream st) :
    cleanTok (headTok st) := by
  cases st with
  | nil => exact ⟨by simp [eofToken, headTok], by simp [eofToken, headTok]⟩
  | cons t rest => exact h t (by simp)

/-- Consuming preserves cleanliness. -/
theorem cleanStream_consume {st : TokStream} (h : cleanStream st) :
    cleanStream (consume st) := by
  intro t ht
  exact h t (List.mem_of_mem_tail ht)

/-- Splitting a leading `<` off an operator token preserves cleanliness. -/
theorem cleanStream_consumeStartingLess {st : TokStream} (h : cleanStream st) :
    cleanStream (consumeStartingLess st).2 := by
  cases st with
  | nil => intro t ht; cases ht
  | cons t rest =>
    simp only [consumeStartingLess]
    split
    · exact fun u hu => h u (List.mem_cons_of_mem _ hu)
    · intro u hu
      cases hu with
      | head => exact ⟨by simp, by simp⟩
      | tail _ hu => exact h u (List.mem_cons_of_mem _ hu)

/-- Splitting a leading `>` off an operator token preserves cleanliness. -/
theorem cleanStream_consumeStartingGreater {st : TokStream} (h : cleanStream st) :
    cleanStream (consumeStartingGreater st).2 := by
  cases st with
  | nil => intro t ht; cases ht
  | cons t rest =>
    simp only [consumeStartingGreater]
    split
    · exact fun u hu => h u (List.mem_cons_of_mem _ hu)
    · intro u hu
      cases hu with
      | head => exact ⟨by simp, by simp⟩
      | tail _ hu => exact h u (List.mem_cons_of_mem _ hu)

/-- The speculative metatype loop preserves cleanliness. -/
theorem specMetatypeSuffixes_clean : ∀ {st : TokStream}, cleanStream st →
    cleanStream (specMetatypeSuffixes st)
  | [], h => h
  | [t], h => h
  | t1 :: t2 :: rest, h => by
    simp only [specMetatypeSuffixes]
    split
    · exact specMetatypeSuffixes_clean (fun u hu => h u (by simp [hu]))
    · exact h

/-- The speculative optional loop preserves cleanliness. -/
theorem specOptionalSuffixes_clean : ∀ {st : TokStream}, cleanStream st →
    cleanStream (specOptionalSuffixes st)
  | [], h => h
  | t :: rest, h => by
    simp only [specOptionalSuffixes]
    split
    · exact specOptionalSuffixes_clean (fun u hu => h u (by simp [hu]))
    · exact h

/-- Both metatype loops consume the same tokens. -/
theorem metatypeSuffixes_state : ∀ (ty : TypeRepr) (st : TokStream),
    (metatypeSuffixes ty st).2 = specMetatypeSuffixes st
  | _, [] => rfl
  | _, [_] => rfl
  | ty, t1 :: t2 :: rest => by
    simp only [metatypeSuffixes, specMetatypeSuffixes]
    split
    · exact metatypeSuffixes_state _ rest
    · rfl

/-- Both optional loops consume the same tokens (their loop conditions are
the same conjunction, tested in either order). -/
theorem optionalSuffixes_state : ∀ (ty : TypeRepr) (st : TokStream),
    (optionalSuffixes ty st).2 = specOptionalSuffixes st
  | _, [] => rfl
  | ty, t :: rest => by
    simp only [optionalSuffixes, specOptionalSuffixes]
    by_cases h1 : t.kind = .question
    · by_cases h2 : t.atStartOfLine = false
      · rw [if_pos ⟨h1, h2⟩, if_pos ⟨h2, h1⟩]
        exact optionalSuffixes_state _ rest
      · rw [if_neg (fun hc => h2 hc.2), if_neg (fun hc => h2 hc.1)]
    · rw [if_neg (fun hc => h1 hc.1), if_neg (fun hc => h1 hc.2)]

/-- The committed result mirrors the speculative one: the prober succeeds
exactly when the committed parser returns a node, and on success both
leave the cursor at the same — still clean — position. -/
def Mirrors {α : Type} (c : Option α × TokStream × List Diag)
    (s : Bool × TokStream) : Prop :=
  s.1 = c.1.isSome ∧ (s.1 = true → c.2.1 = s.2 ∧ cleanStream s.2)

/-- On clean streams every committed production mirrors its speculative
counterpart, at every fuel: the same acceptance verdict, and the same
cursor position on success.  Proven by simultaneous induction on the
fuel, which both modes consume at the same program points. -/
theorem committed_mirrors_prober : ∀ (n : Nat),
    (∀ (msg : DiagKind) (st : TokStream), cleanStream st →
        Mirrors (parseType msg n st) (canParseType n st)) ∧
    (∀ (ty0 : TypeRepr) (st : TokStream), cleanStream st →
        Mirrors (parseTypeSuffixes n ty0 st) (canParseTypeSuffixes n st)) ∧
    (∀ (st : TokStream), cleanStream st →
        Mirrors (parseTypeIdentifier n st) (canParseTypeIdentifier n st)) ∧
    (∀ (acc : List Component) (st : TokStream), cleanStream st →
        Mirrors (identComponents n acc st) (specIdentComponents n st)) ∧
    (∀ (st : TokStream), cleanStream st →
        Mirrors (parseGenericArguments n st) (canParseGenericArguments n st)) ∧
    (∀ (lA : Nat) (acc : List TypeRepr) (st : TokStream), cleanStream st →
        Mirrors (genericArgsList n lA acc st) (specGenericArgsList n st)) ∧
    (∀ (base : TypeRepr) (st : TokStream), cleanStream st →
        Mirrors (parseTypeArray n base st) (canParseTypeArray n st)) := by
  intro n
  induction n with
  | zero =>
    exact ⟨fun _ _ _ => ⟨rfl, fun hh => nomatch hh⟩,
           fun _ _ _ => ⟨rfl, fun hh => nomatch hh⟩,
           fun _ _ => ⟨rfl, fun hh => nomatch hh⟩,
           fun _ _ _ => ⟨rfl, fun hh => nomatch hh⟩,
           fun _ _ => ⟨rfl, fun hh => nomatch hh⟩,
           fun _ _ _ _ => ⟨rfl, fun hh => nomatch hh⟩,
           fun _ _ _ => ⟨rfl, fun hh => nomatch hh⟩⟩
  | succ n ih =>
    obtain ⟨ihT, ihS, ihI, ihIL, ihG, ihGL, ihA⟩ := ih
    refine ⟨?_, ?_, ?_, ?_, ?_, ?_, ?_⟩
    · -- parseType mirrors canParseType
      intro msg st hcl
      simp only [parseType, canParseType]
      by_cases h1 : (headTok st).kind = .kw_This ∨ (headTok st).kind = .identifier
      · rw [if_pos h1, if_pos h1]
        have hm := ihI st hcl
        rcases hI : parseTypeIdentifier n st with ⟨oty, st1, d1⟩
        rcases hS : canParseTypeIdentifier n st with ⟨ok, st1'⟩
        rw [hI, hS] at hm
        obtain ⟨hb, hsucc⟩ := hm
        cases ok
        · rcases oty with _ | ty0
          · exact ⟨rfl, fun hh => nomatch hh⟩
          · simp at hb
        · rcases oty with _ | ty0
          · simp at hb
          · obtain ⟨hst, hcl1⟩ := hsucc rfl
            dsimp only at hst
            subst hst
            dsimp only
            have hm2 := ihS ty0 st1 hcl1
            rcases hSuf : parseTypeSuffixes n ty0 st1 with ⟨o2, s2, dd2⟩
            rcases hCS : canParseTypeSuffixes n st1 with ⟨b2, sb2⟩
            rw [hSuf, hCS] at hm2
            exact ⟨hm2.1, hm2.2⟩
      · rw [if_neg h1, if_neg h1]
        by_cases h2 : (headTok st).kind = .kw_protocol
        · exact absurd h2 (cleanStream_headTok hcl).2
        · rw [if_neg h2, if_neg h2]
          by_cases h3 : (headTok st).kind = .l_paren
          · exact absurd h3 (cleanStream_headTok hcl).1
          · rw [if_neg h3, if_neg h3]
            exact ⟨rfl, fun hh => nomatch hh⟩
    · -- parseTypeSuffixes mirrors canParseTypeSuffixes
      intro ty0 st hcl
      simp only [parseTypeSuffixes, canParseTypeSuffixes]
      rcases hmt : metatypeSuffixes ty0 st with ⟨ty2, st2⟩
      have hms : st2 = specMetatypeSuffixes st := by
        have := metatypeSuffixes_state ty0 st
        rw [hmt] at this
        exact this
      have hcl2 : cleanStream st2 := by
        rw [hms]; exact specMetatypeSuffixes_clean hcl
      rw [← hms]
      dsimp only
      by_cases ha : (headTok st2).kind = .arrow
      · rw [if_pos ha, if_pos ha]
        have hm := ihT .expected_type_function_result (consume st2)
          (cleanStream_consume hcl2)
        rcases hp : parseType .expected_type_function_result n (consume st2)
          with ⟨oc, s3, d3⟩
        rcases hq : canParseType n (consume st2) with ⟨b3, sb3⟩
        rw [hp, hq] at hm
        obtain ⟨hb, hsucc⟩ := hm
        cases b3
        · rcases oc with _ | cod
          · exact ⟨rfl, fun hh => nomatch hh⟩
          · simp at hb
        · rcases oc with _ | cod
          · simp at hb
          · obtain ⟨hst, hcl3⟩ := hsucc rfl
            dsimp only at hst
            subst hst
            exact ⟨rfl, fun _ => ⟨rfl, hcl3⟩⟩
      · rw [if_neg ha, if_neg ha]
        rcases ho : optionalSuffixes ty2 st2 with ⟨ty4, st4⟩
        have hos : st4 = specOptionalSuffixes st2 := by
          have := optionalSuffixes_state ty2 st2
          rw [ho] at this
          exact this
        have hcl4 : cleanStream st4 := by
          rw [hos]; exact specOptionalSuffixes_clean hcl2
        rw [← hos]
        dsimp only
        by_cases hsq : isFollowingLSquare (headTok st4) = true
        · rw [if_pos hsq, if_pos hsq]
          exact ihA ty4 st4 hcl4
        · rw [if_neg hsq, if_neg hsq]
          exact ⟨rfl, fun _ => ⟨rfl, hcl4⟩⟩
    · -- parseTypeIdentifier mirrors canParseTypeIdentifier
      intro st hcl
      simp only [parseTypeIdentifier, canParseTypeIdentifier]
      by_cases he : (headTok st).kind = .identifier ∨ (headTok st).kind = .kw_This
      · rw [if_pos he, if_pos he]
        have hm := ihIL [] st hcl
        rcases hC : identComponents n [] st with ⟨oc, st1, d1⟩
        rcases hS : specIdentComponents n st with ⟨ok, st1'⟩
        rw [hC, hS] at hm
        obtain ⟨hb, hsucc⟩ := hm
        cases ok
        · rcases oc with _ | comps
          · exact ⟨rfl, fun hh => nomatch hh⟩
          · simp at hb
        · rcases oc with _ | comps
          · simp at hb
          · obtain ⟨hst, hcl1⟩ := hsucc rfl
            dsimp only at hst
            subst hst
            exact ⟨rfl, fun _ => ⟨rfl, hcl1⟩⟩
      · rw [if_neg he, if_neg he]
        exact ⟨rfl, fun hh => nomatch hh⟩
    · -- identComponents mirrors specIdentComponents
      intro acc st hcl
      simp only [identComponents, specIdentComponents, parseIdentifier]
      by_cases he : (headTok st).kind = .identifier ∨ (headTok st).kind = .kw_This
      · rw [if_pos he, if_pos he]
        dsimp only
        have hcl1 : cleanStream (consume st) := cleanStream_consume hcl
        by_cases hlt : startsWithLess (headTok (consume st)) = true
        · rw [if_pos hlt, if_pos hlt]
          have hm := ihG (consume st) hcl1
          rcases hG : parseGenericArguments n (consume st) with ⟨oargs, st2, d2⟩
          rcases hgs : canParseGenericArguments n (consume st) with ⟨okg, st2'⟩
          rw [hG, hgs] at hm
          obtain ⟨hb, hsucc⟩ := hm
          cases okg
          · rcases oargs with _ | args
            · exact ⟨rfl, fun hh => nomatch hh⟩
            · simp at hb
          · rcases oargs with _ | args
            · simp at hb
            · obtain ⟨hst, hcl2⟩ := hsucc rfl
              dsimp only at hst
              subst hst
              dsimp only
              by_cases hp : ((headTok st2).kind = .period ∨ (headTok st2).kind = .periodPfx)
                  ∧ (peekTok st2).kind ≠ .kw_metatype
              · rw [if_pos hp, if_pos hp]
                have hm3 := ihIL
                  (acc ++ [Component.mk (headTok st).loc (headTok st).text args none])
                  (consume st2) (cleanStream_consume hcl2)
                rcases hR : identComponents n
                    (acc ++ [Component.mk (headTok st).loc (headTok st).text args none])
                    (consume st2) with ⟨r3, st3, d3⟩
                rcases hRS : specIdentComponents n (consume st2) with ⟨b3, sb3⟩
                rw [hR, hRS] at hm3
                exact ⟨hm3.1, hm3.2⟩
              · rw [if_neg hp, if_neg hp]
                exact ⟨rfl, fun _ => ⟨rfl, hcl2⟩⟩
        · rw [if_neg hlt, if_neg hlt]
          by_cases hp : ((headTok (consume st)).kind = .period
              ∨ (headTok (consume st)).kind = .periodPfx)
              ∧ (peekTok (consume st)).kind ≠ .kw_metatype
          · rw [if_pos hp, if_pos hp]
            have hm3 := ihIL
              (acc ++ [Component.mk (headTok st).loc (headTok st).text [] none])
              (consume (consume st)) (cleanStream_consume hcl1)
            rcases hR : identComponents n
                (acc ++ [Component.mk (headTok st).loc (headTok st).text [] none])
                (consume (consume st)) with ⟨r3, st3, d3⟩
            rcases hRS : specIdentComponents n (consume (consume st)) with ⟨b3, sb3⟩
            rw [hR, hRS] at hm3
            exact ⟨hm3.1, hm3.2⟩
          · rw [if_neg hp, if_neg hp]
            exact ⟨rfl, fun _ => ⟨rfl, hcl1⟩⟩
      · rw [if_neg he, if_neg he]
        exact ⟨rfl, fun hh => nomatch hh⟩
    · -- parseGenericArguments mirrors canParseGenericArguments
      intro st hcl
      simp only [parseGenericArguments, canParseGenericArguments]
      by_cases hlt : startsWithLess (headTok st) = true
      · rw [if_pos hlt, if_pos hlt]
        rcases hc : consumeStartingLess st with ⟨lA, st1⟩
        have hcl1 : cleanStream st1 := by
          have h2 : cleanStream (consumeStartingLess st).2 :=
            cleanStream_consumeStartingLess hcl
          rw [hc] at h2
          exact h2
        dsimp only
        exact ihGL lA [] st1 hcl1
      · rw [if_neg hlt, if_neg hlt]
        exact ⟨rfl, fun hh => nomatch hh⟩
    · -- genericArgsList mirrors specGenericArgsList
      intro lA acc st hcl
      simp only [genericArgsList, specGenericArgsList]
      have hm := ihT .expected_type st hcl
      rcases hT : parseType .expected_type n st with ⟨oty, st1, d1⟩
      rcases hC : canParseType n st with ⟨b1, st1'⟩
      rw [hT, hC] at hm
      obtain ⟨hb, hsucc⟩ := hm
      cases b1
      · rcases oty with _ | ty
        · exact ⟨rfl, fun hh => nomatch hh⟩
        · simp at hb
      · rcases oty with _ | ty
        · simp at hb
        · obtain ⟨hst, hcl1⟩ := hsucc rfl
          dsimp only at hst
          subst hst
          dsimp only
          by_cases hcm : (headTok st1).kind = .comma
          · rw [if_pos hcm, if_pos hcm]
            have hm2 := ihGL lA (acc ++ [ty]) (consume st1) (cleanStream_consume hcl1)
            rcases hR : genericArgsList n lA (acc ++ [ty]) (consume st1)
              with ⟨r2, st2, d2⟩
            rcases hRS : specGenericArgsList n (consume st1) with ⟨b2, sb2⟩
            rw [hR, hRS] at hm2
            exact ⟨hm2.1, hm2.2⟩
          · rw [if_neg hcm, if_neg hcm]
            by_cases hgt : startsWithGreater (headTok st1) = true
            · rw [if_pos hgt, if_pos hgt]
              exact ⟨rfl, fun _ => ⟨rfl, cleanStream_consumeStartingGreater hcl1⟩⟩
            · rw [if_neg hgt, if_neg hgt]
              exact ⟨rfl, fun hh => nomatch hh⟩
    · -- parseTypeArray mirrors canParseTypeArray
      intro base st hcl
      by_cases hpk : (peekTok st).kind = .r_square
      · have hpk' : (headTok (consume st)).kind = .r_square := hpk
        simp only [parseTypeArray, canParseTypeArray]
        rw [if_pos hpk', if_pos hpk']
        by_cases hfs : isFollowingLSquare (headTok (consume (consume st))) = true
        · rw [if_pos hfs, if_pos hfs]
          have hm := ihA base (consume (consume st))
            (cleanStream_consume (cleanStream_consume hcl))
          rcases hR : parseTypeArray n base (consume (consume st)) with ⟨o2, s2, d2⟩
          rcases hRS : canParseTypeArray n (consume (consume st)) with ⟨b2, sb2⟩
          rw [hR, hRS] at hm
          obtain ⟨hb, hsucc⟩ := hm
          cases b2
          · rcases o2 with _ | inner
            · exact ⟨rfl, fun hh => nomatch hh⟩
            · simp at hb
          · rcases o2 with _ | inner
            · simp at hb
            · obtain ⟨hst, hcl2⟩ := hsucc rfl
              dsimp only at hst
              subst hst
              exact ⟨rfl, fun _ => ⟨rfl, hcl2⟩⟩
        · rw [if_neg hfs, if_neg hfs]
          exact ⟨rfl, fun _ => ⟨rfl, cleanStream_consume (cleanStream_consume hcl)⟩⟩
      · have hpk' : ¬((headTok (consume st)).kind = .r_square) := hpk
        have h2 : (canParseTypeArray (n+1) st).1 = false := by
          simp only [canParseTypeArray]
          rw [if_neg hpk']
        have h1 := parseTypeArray_size_none (n+1) base st hpk
        constructor
        · rw [h1, h2]
          rfl
        · intro hh
          rw [h2] at hh
          cases hh

/-- C1 (amended): the prober and the committed parser accept exactly the
same language on streams where the committed parser performs no tuple or
composition recovery — streams containing no `(` token and no `protocol`
keyword: at every fuel, `canParseType` returns true precisely when
`parseType` returns a node.  On tuple and composition inputs the
committed parser's error recovery accepts inputs the prober rejects (see
the counterexample), so the full equivalence claimed does not hold. -/
theorem c1_amended_equivalence (msg : DiagKind) (f : Nat) (st : TokStream)
    (h : cleanStream st) :
    (canParseType f st).1 = true ↔ (parseType msg f st).1.isSome = true := by
  have hb := ((committed_mirrors_prober f).1 msg st h).1
  rw [hb]

/-- C1 witness: the amended equivalence applied at the concrete clean
stream `Int`. -/
theorem c1_witness :
    (parseType .expected_type 5
      [mkTok .identifier "Int" 1, mkTok .eof "" 2]).1.isSome = true :=
  (c1_amended_equivalence .expected_type 5
    [mkTok .identifier "Int" 1, mkTok .eof "" 2] (by decide)).mp (by decide)

/-- C5 witness: the set characterisation applied at a concrete comma
token. -/
theorem c5_witness :
    isGenericTypeDisambiguatingToken (mkTok .comma "," 1) = true :=
  (c5_amended.1 (mkTok .comma "," 1)).mpr (by decide)

/-- C6 witness: the cursor-restoration equation at a concrete stream. -/
theorem c6_witness :
    (canParseAsGenericArgumentList 3
      [mkTok .oper "<" 1, mkTok .identifier "Int" 2, mkTok .oper ">" 3,
       mkTok .eof "" 4]).2 =
    [mkTok .oper "<" 1, mkTok .identifier "Int" 2, mkTok .oper ">" 3,
     mkTok .eof "" 4] :=
  c6_lookahead_restores_cursor 3 _

/-- C8 witness: the zero-element-variadic guard equation at concrete
arguments. -/
theorem c8_witness :
    tupleBodyFinish 1 [] (some 3) [mkTok .eof "" 4] =
      (none, [mkTok .eof "" 4], [⟨.empty_tuple_ellipsis, 3⟩]) :=
  c8_variadic_tuples.1 1 3 [mkTok .eof "" 4]

/-- Concrete instance of the helper `parseTypeArray_size_none` at the
suffix `[9]`. -/
theorem parseTypeArray_size_none_instance :
    (parseTypeArray 7 (TypeRepr.identType []) [mkTok .l_square "[" 0,
      mkTok .int_lit "9" 1, mkTok .r_square "]" 2]).1 = none :=
  parseTypeArray_size_none 7 _ _ (by decide)
